import Mathlib

/-!
Shallow embedding of `src/tailwind.config.js` (repository jooon2994/salse).

The source file is a single static configuration object exported through
`module.exports`.  We model JavaScript configuration values as an inductive
type `JsValue` (string literals, booleans, arrays, objects with ordered
string keys, and opaque function values, which a JS module could export but
this one does not), and transcribe the exported object literally.
-/

/-- A JavaScript value as it can appear in a configuration module:
string and boolean literals, arrays, objects (ordered key/value fields),
and opaque function values (identified by a tag). -/
inductive JsValue where
  | str (s : String)
  | bool (b : Bool)
  | list (xs : List JsValue)
  | obj (fields : List (String × JsValue))
  | fn (tag : Nat)

/-- First-match lookup of a key among an object's fields. -/
def lookupField : List (String × JsValue) → String → Option JsValue
  | [], _ => none
  | (k, v) :: rest, key => if k = key then some v else lookupField rest key

/-- Property access `v[key]` on an object value; `none` on any other shape. -/
def JsValue.get : JsValue → String → Option JsValue
  | .obj fields, key => lookupField fields key
  | _, _ => none

/-- Path access `v[k1][k2]...`. -/
def getPath : JsValue → List String → Option JsValue
  | v, [] => some v
  | v, k :: ks =>
    match v.get k with
    | some v' => getPath v' ks
    | none => none

/-- The ordered list of keys of an object value (empty for non-objects). -/
def objKeys : JsValue → List String
  | .obj fields => fields.map (fun kv => kv.1)
  | _ => []

/-- `true` exactly on string-literal values. -/
def JsValue.isStr : JsValue → Bool
  | .str _ => true
  | _ => false

/-- The `'custom-blue'` entry of `theme.extend.colors`
(src/tailwind.config.js lines 8-12). -/
def customBlue : JsValue :=
  .obj [("light", .str "#3b82f6"),
        ("DEFAULT", .str "#2563eb"),
        ("dark", .str "#1e40af")]

/-- The `colors` object of `theme.extend` (src/tailwind.config.js lines 7-17). -/
def colors : JsValue :=
  .obj [("custom-blue", customBlue),
        ("light-bg", .str "#ffffff"),
        ("light-text", .str "#1f2937"),
        ("dark-bg", .str "#111827"),
        ("dark-text", .str "#f9fafb")]

/-- The object the module exports (src/tailwind.config.js lines 2-21). -/
def moduleExports : JsValue :=
  .obj [("darkMode", .str "class"),
        ("content", .list [.str "./templates/**/*.html"]),
        ("theme", .obj [("extend", .obj [("colors", colors)])]),
        ("plugins", .list [])]

/-- `true` on the sixteen hexadecimal digit characters. -/
def isHexDigit (c : Char) : Bool :=
  ('0' ≤ c && c ≤ '9') || ('a' ≤ c && c ≤ 'f') || ('A' ≤ c && c ≤ 'F')

/-- A color literal in the sense of the claim: `#` followed by exactly six
hexadecimal digits. -/
def isHexColorLit (s : String) : Bool :=
  match s.data with
  | '#' :: rest => rest.length == 6 && rest.all isHexDigit
  | _ => false

/-- A single entry of the color extension is hex-valued: either a string
literal that is a hex color, or a sub-object all of whose shade values are
string literals that are hex colors. -/
def colorEntryHex : JsValue → Bool
  | .str s => isHexColorLit s
  | .obj shades =>
    shades.all (fun kv =>
      match kv.2 with
      | .str s => isHexColorLit s
      | _ => false)
  | _ => false

/-- Every entry of a colors object is hex-valued in the sense of
`colorEntryHex`. -/
def colorsAllHex : JsValue → Bool
  | .obj entries => entries.all (fun kv => colorEntryHex kv.2)
  | _ => false

/-- A value is a shade sub-mapping: an object whose values are all string
literals. -/
def isShadeMapOfStrings : JsValue → Bool
  | .obj shades => shades.all (fun kv => kv.2.isStr)
  | _ => false

/-- Every entry of a colors object is either a single string literal or a
shade sub-mapping of string literals. -/
def colorsWellShaped : JsValue → Bool
  | .obj entries => entries.all (fun kv => kv.2.isStr || isShadeMapOfStrings kv.2)
  | _ => false

/-- The glob pattern strings of the configuration's `content` list. -/
def contentStrings (cfg : JsValue) : List String :=
  match cfg.get "content" with
  | some (.list xs) =>
    xs.filterMap (fun v =>
      match v with
      | .str s => some s
      | _ => none)
  | _ => []

/-- A token of a compiled glob pattern: a literal character, `?` (one
non-separator character), `*` (a run of non-separator characters) or `**`
(a run of arbitrary characters). -/
inductive GlobToken where
  | lit (c : Char)
  | qmark
  | star
  | dstar

/-- Modelled from the spec: compilation of a glob pattern string into
tokens, performed by the external build tool that consumes the content
list and is absent from src/.  `**` compiles to one `dstar` token, a lone
`*` to `star`, `?` to `qmark`, every other character to itself. -/
def parseGlob : List Char → List GlobToken
  | [] => []
  | '*' :: '*' :: rest => .dstar :: parseGlob rest
  | '*' :: rest => .star :: parseGlob rest
  | '?' :: rest => .qmark :: parseGlob rest
  | c :: rest => .lit c :: parseGlob rest

/-- All ways of cutting a character list into a front part and a back
part, in order. -/
def splits : List Char → List (List Char × List Char)
  | [] => [([], [])]
  | x :: xs => ([], x :: xs) :: (splits xs).map (fun p => (x :: p.1, p.2))

/-- Modelled from the spec: the matching semantics of a compiled glob
pattern against a path, performed by the external build tool and absent
from src/.  A literal token matches its own character, `qmark` one
character other than the separator `/`, `star` a run of non-separator
characters, `dstar` an arbitrary run of characters. -/
def globMatch : List GlobToken → List Char → Bool
  | [], s => s.isEmpty
  | .lit c :: ts, s =>
    match s with
    | [] => false
    | x :: xs => x == c && globMatch ts xs
  | .qmark :: ts, s =>
    match s with
    | [] => false
    | x :: xs => x != '/' && globMatch ts xs
  | .star :: ts, s =>
    (splits s).any (fun p => p.1.all (fun c => c != '/') && globMatch ts p.2)
  | .dstar :: ts, s =>
    (splits s).any (fun p => globMatch ts p.2)

/-- The compiled form of the configuration's only content pattern
`"./templates/**/*.html"` (src/tailwind.config.js line 4). -/
def templatesGlob : List GlobToken := parseGlob "./templates/**/*.html".data

/-- Helper for `validGlob`: scans the pattern keeping track of whether a
character class opened by `[` is still open. -/
def bracketsClosed : List Char → Bool → Bool
  | [], inClass => !inClass
  | c :: rest, false =>
    if c = '[' then bracketsClosed rest true else bracketsClosed rest false
  | c :: rest, true =>
    if c = ']' then bracketsClosed rest false else bracketsClosed rest true

/-- Modelled from the spec: syntactic well-formedness of a glob pattern
(the validation the spec attributes to the external consuming tool, absent
from src/): the pattern is nonempty and every character class opened with
`[` is closed with `]` before the pattern ends. -/
def validGlob (s : String) : Bool :=
  !s.data.isEmpty && bracketsClosed s.data false

mutual

/-- A value is constant data: every leaf is a string or boolean literal
and no function value occurs anywhere in it. -/
def isConstantData : JsValue → Bool
  | .str _ => true
  | .bool _ => true
  | .fn _ => false
  | .list xs => allConstantList xs
  | .obj fs => allConstantFields fs

/-- Every element of a list of values is constant data. -/
def allConstantList : List JsValue → Bool
  | [] => true
  | v :: vs => isConstantData v && allConstantList vs

/-- Every field value of an object is constant data. -/
def allConstantFields : List (String × JsValue) → Bool
  | [] => true
  | (_, v) :: fs => isConstantData v && allConstantFields fs

end

/-- Modelled from the spec: a read of the configuration by the external
tool, with the configuration threaded as explicit state.  Reading returns
the value at the given path together with the state after the read. -/
def readConfig (st : JsValue) (path : List String) : Option JsValue × JsValue :=
  (getPath st path, st)

/-- Modelled from the spec: resolution of one named scale of the consuming
tool's default theme against a configuration (absent from src/; the spec
describes `theme.extend` as additive).  A scale listed directly under
`theme` replaces the default scale wholesale; a scale listed under
`theme.extend` is merged additively, keeping every default token; a scale
mentioned in neither place is the default scale unchanged. -/
def resolveScale (cfg : JsValue) (scale : String)
    (defaultScale : List (String × JsValue)) : List (String × JsValue) :=
  match getPath cfg ["theme", scale] with
  | some (.obj fields) => fields
  | _ =>
    match getPath cfg ["theme", "extend", scale] with
    | some (.obj ext) => defaultScale ++ ext
    | _ => defaultScale

/-- C1: every color value declared in `theme.extend.colors` of the exported
configuration — the values of 'light-bg', 'light-text', 'dark-bg',
'dark-text' and every shade of 'custom-blue' — is a '#' followed by exactly
six hexadecimal digits. -/
theorem every_color_value_is_hex_literal :
    getPath moduleExports ["theme", "extend", "colors"] = some colors ∧
    colorsAllHex colors = true := by
  constructor
  · rfl
  · decide

/-- C2: in the color extension every name maps either to a single string
literal or to a shade sub-mapping of string literals; 'custom-blue' is the
shade sub-mapping, the other four names are single string literals, and no
other names or shapes occur. -/
theorem color_entries_are_strings_or_shade_maps :
    objKeys colors =
      ["custom-blue", "light-bg", "light-text", "dark-bg", "dark-text"] ∧
    colorsWellShaped colors = true ∧
    colors.get "custom-blue" = some customBlue ∧
    isShadeMapOfStrings customBlue = true ∧
    ((colors.get "light-bg").map JsValue.isStr = some true ∧
     (colors.get "light-text").map JsValue.isStr = some true ∧
     (colors.get "dark-bg").map JsValue.isStr = some true ∧
     (colors.get "dark-text").map JsValue.isStr = some true) := by
  refine ⟨rfl, by decide, rfl, by decide, rfl, rfl, rfl, rfl⟩

/-- C3: the exported configuration object has exactly the four top-level
keys darkMode, content, theme and plugins, in that order, and no others. -/
theorem exported_config_top_level_keys :
    objKeys moduleExports = ["darkMode", "content", "theme", "plugins"] := rfl

/-- C6: the exported configuration's darkMode field is present and is the
string literal 'class' (a string, hence a boolean-or-string mode flag). -/
theorem darkMode_is_class_string :
    moduleExports.get "darkMode" = some (.str "class") ∧
    ((moduleExports.get "darkMode").map JsValue.isStr = some true) :=
  ⟨rfl, rfl⟩

/-- C8: the exported configuration's plugins field is the empty list — no
plugin is registered. -/
theorem plugins_is_empty_list :
    moduleExports.get "plugins" = some (.list []) := rfl

/-- C10: 'custom-blue' maps to a sub-mapping with exactly the shade keys
'light', 'DEFAULT' (upper-case) and 'dark', and its three shade values
'#3b82f6', '#2563eb', '#1e40af' are pairwise distinct. -/
theorem custom_blue_shades_distinct :
    colors.get "custom-blue" = some customBlue ∧
    objKeys customBlue = ["light", "DEFAULT", "dark"] ∧
    customBlue.get "light" = some (.str "#3b82f6") ∧
    customBlue.get "DEFAULT" = some (.str "#2563eb") ∧
    customBlue.get "dark" = some (.str "#1e40af") ∧
    ("#3b82f6" : String) ≠ "#2563eb" ∧
    ("#3b82f6" : String) ≠ "#1e40af" ∧
    ("#2563eb" : String) ≠ "#1e40af" := by
  refine ⟨rfl, rfl, rfl, rfl, rfl, by decide, by decide, by decide⟩

/-- Cutting a list at any position recovered by `splits` reassembles the
list. -/
theorem mem_splits : ∀ (s : List Char) (p : List Char × List Char),
    p ∈ splits s → s = p.1 ++ p.2 := by
  intro s
  induction s with
  | nil =>
    intro p hp
    simp [splits] at hp
    simp [hp]
  | cons x xs ih =>
    intro p hp
    simp [splits] at hp
    rcases hp with h | ⟨a, b, hmem, heq⟩
    · simp [h]
    · subst heq
      simp [ih (a, b) hmem]

/-- A pattern beginning with a run of literal tokens only matches strings
beginning with those characters, and the rest of the pattern matches the
rest of the string. -/
theorem globMatch_lit_run : ∀ (cs : List Char) (ts : List GlobToken) (s : List Char),
    globMatch (cs.map GlobToken.lit ++ ts) s = true →
    ∃ r, s = cs ++ r ∧ globMatch ts r = true := by
  intro cs
  induction cs with
  | nil => intro ts s h; exact ⟨s, rfl, h⟩
  | cons c cs ih =>
    intro ts s h
    cases s with
    | nil => simp [globMatch] at h
    | cons x xs =>
      simp [globMatch] at h
      obtain ⟨hx, hm⟩ := h
      obtain ⟨r, hr, hmr⟩ := ih ts xs hm
      exact ⟨r, by simp [hx, hr], hmr⟩

/-- A pattern ending in a run of literal tokens only matches strings ending
in those characters. -/
theorem globMatch_lit_suffix : ∀ (ts : List GlobToken) (cs : List Char) (s : List Char),
    globMatch (ts ++ cs.map GlobToken.lit) s = true →
    ∃ p, s = p ++ cs := by
  intro ts
  induction ts with
  | nil =>
    intro cs s h
    obtain ⟨r, hr, hmr⟩ := globMatch_lit_run cs [] s (by simpa using h)
    have : r = [] := by
      cases r with
      | nil => rfl
      | cons a as => simp [globMatch] at hmr
    exact ⟨[], by simp [hr, this]⟩
  | cons t ts ih =>
    intro cs s h
    cases t with
    | lit c =>
      cases s with
      | nil => simp [globMatch] at h
      | cons x xs =>
        simp [globMatch] at h
        obtain ⟨p, hp⟩ := ih cs xs h.2
        exact ⟨x :: p, by simp [hp]⟩
    | qmark =>
      cases s with
      | nil => simp [globMatch] at h
      | cons x xs =>
        simp [globMatch] at h
        obtain ⟨p, hp⟩ := ih cs xs h.2
        exact ⟨x :: p, by simp [hp]⟩
    | star =>
      simp only [List.cons_append, globMatch, List.any_eq_true] at h
      obtain ⟨q, hq, hmq⟩ := h
      obtain ⟨ha, hm⟩ := Bool.and_eq_true_iff.mp hmq
      obtain ⟨p, hp⟩ := ih cs q.2 hm
      exact ⟨q.1 ++ p, by simp [mem_splits s q hq, hp]⟩
    | dstar =>
      simp only [List.cons_append, globMatch, List.any_eq_true] at h
      obtain ⟨q, hq, hmq⟩ := h
      obtain ⟨p, hp⟩ := ih cs q.2 hmq
      exact ⟨q.1 ++ p, by simp [mem_splits s q hq, hp]⟩

/-- A key found in the front part of an appended field list is found, with
the same value, in the whole list. -/
theorem lookupField_append_left (a b : List (String × JsValue)) (k : String) (v : JsValue)
    (h : lookupField a k = some v) : lookupField (a ++ b) k = some v := by
  induction a with
  | nil => simp [lookupField] at h
  | cons kv rest ih =>
    obtain ⟨key, val⟩ := kv
    by_cases hk : key = k
    · simpa [lookupField, hk] using h
    · simp [lookupField, hk] at h ⊢
      exact ih h

/-- C4: every glob pattern in the exported configuration's content list is
syntactically well-formed; the list's sole entry "./templates/**/*.html"
is a valid glob pattern. -/
theorem content_globs_well_formed :
    contentStrings moduleExports = ["./templates/**/*.html"] ∧
    (contentStrings moduleExports).all validGlob = true :=
  ⟨rfl, by decide⟩

/-- C5: the exported configuration's content field is the one-element list
["./templates/**/*.html"], and every path its pattern matches is an HTML
file under the templates directory: it begins with "./templates/" and ends
with ".html". -/
theorem content_selects_templates_html :
    getPath moduleExports ["content"] = some (.list [.str "./templates/**/*.html"]) ∧
    ∀ s : List Char, globMatch templatesGlob s = true →
      (∃ r, s = "./templates/".data ++ r) ∧ (∃ p, s = p ++ ".html".data) := by
  refine ⟨rfl, fun s h => ?_⟩
  constructor
  · have h' : globMatch (("./templates/".data).map GlobToken.lit ++
        ([.dstar, .lit '/', .star] ++ (".html".data).map GlobToken.lit)) s = true := h
    obtain ⟨r, hr, _⟩ := globMatch_lit_run _ _ s h'
    exact ⟨r, hr⟩
  · have h' : globMatch ((("./templates/".data).map GlobToken.lit ++
        [.dstar, .lit '/', .star]) ++ (".html".data).map GlobToken.lit) s = true := h
    exact globMatch_lit_suffix _ _ s h'

/-- C5 witness: the pattern matches the concrete path
"./templates/pages/index.html", and the theorem places that path under the
templates directory. -/
theorem content_selects_templates_html_witness :
    globMatch templatesGlob "./templates/pages/index.html".data = true ∧
    (∃ r, ("./templates/pages/index.html".data : List Char) = "./templates/".data ++ r) ∧
    (∃ p, ("./templates/pages/index.html".data : List Char) = p ++ ".html".data) :=
  ⟨by decide,
   content_selects_templates_html.2 "./templates/pages/index.html".data (by decide)⟩

/-- C7: the exported configuration is pure constant data — every leaf a
string or boolean literal, no function values — and reading it, modelled
as state-passing, never modifies it: the state after a read is the
configuration itself, and a second read of the same path from that state
yields the same value as the first. -/
theorem config_is_constant_and_reads_are_pure :
    isConstantData moduleExports = true ∧
    ∀ path : List String,
      (readConfig moduleExports path).2 = moduleExports ∧
      (readConfig (readConfig moduleExports path).2 path).1 =
        (readConfig moduleExports path).1 := by
  refine ⟨?_, fun path => ⟨rfl, rfl⟩⟩
  simp [isConstantData, allConstantList, allConstantFields, moduleExports, colors, customBlue]

/-- C9: the theme object has only the 'extend' key, and under the modelled
resolution semantics the configuration never replaces a default scale:
every token of any default scale of any scale name (other than the special
key 'extend' itself) still resolves to its default value. -/
theorem theme_only_extends :
    (moduleExports.get "theme").map objKeys = some ["extend"] ∧
    ∀ (scale : String), scale ≠ "extend" →
      ∀ (defaultScale : List (String × JsValue)) (token : String) (v : JsValue),
        lookupField defaultScale token = some v →
        lookupField (resolveScale moduleExports scale defaultScale) token = some v := by
  refine ⟨rfl, fun scale hs defaultScale token v hv => ?_⟩
  have h1 : getPath moduleExports ["theme", scale] = none := by
    simp [moduleExports, getPath, JsValue.get, lookupField, Ne.symm hs]
  by_cases hc : "colors" = scale
  · subst hc
    have h2 : resolveScale moduleExports "colors" defaultScale =
        defaultScale ++ [("custom-blue", customBlue),
          ("light-bg", .str "#ffffff"),
          ("light-text", .str "#1f2937"),
          ("dark-bg", .str "#111827"),
          ("dark-text", .str "#f9fafb")] := by
      simp [resolveScale, h1, moduleExports, getPath, JsValue.get, lookupField, colors]
    rw [h2]
    exact lookupField_append_left _ _ _ _ hv
  · have h2 : getPath moduleExports ["theme", "extend", scale] = none := by
      simp [moduleExports, getPath, JsValue.get, lookupField, hc]
    have h3 : resolveScale moduleExports scale defaultScale = defaultScale := by
      simp [resolveScale, h1, h2]
    rw [h3]
    exact hv

/-- C9 witness: a default color token 'red' survives resolution of the
colors scale against the exported configuration unchanged. -/
theorem theme_only_extends_witness :
    lookupField [("red", JsValue.str "#ff0000")] "red" = some (.str "#ff0000") ∧
    lookupField (resolveScale moduleExports "colors" [("red", JsValue.str "#ff0000")])
      "red" = some (.str "#ff0000") :=
  ⟨rfl,
   theme_only_extends.2 "colors" (by decide) [("red", .str "#ff0000")] "red" _ rfl⟩
